import Mathlib

/-!
Verification of the multiflash device-provisioning script (src/multiflash.py).

The Python source is shallowly embedded: each relevant function is
translated into an executable Lean definition over explicit state, and the
claims about the program are settled as theorems about those definitions.
Python `datetime` values are modelled as natural-number timestamps (seconds);
byte strings as `List Nat`; the dynamically typed values that the script
stores in its global `done_devices` set as an explicit sum type `PyVal`,
so that Python's cross-type `==` (which is `False` between a `NamedTuple`
and a `str`) is modelled faithfully.
-/

namespace Multiflash

/-- Generic needle/haystack test: does the second list start with the first?
Used to model Python's `in` on `str`/`bytes`. -/
def leadsWith {α : Type} [BEq α] : List α → List α → Bool
  | [], _ => true
  | _ :: _, [] => false
  | a :: as, b :: bs => a == b && leadsWith as bs

/-- `containsSeq needle haystack`: does `needle` occur contiguously inside
`haystack`?  Models Python's substring test `needle in haystack`. -/
def containsSeq {α : Type} [BEq α] : List α → List α → Bool
  | needle, [] => needle.isEmpty
  | needle, c :: rest => leadsWith needle (c :: rest) || containsSeq needle rest

/-- Python `needle in haystack` on strings. -/
def pyStrIn (needle haystack : String) : Bool :=
  containsSeq needle.data haystack.data

/-- Python truthiness of a string: non-empty. -/
def pyTruthyStr (s : String) : Bool := !(s == "")

/-- `DeviceInfo` (src/multiflash.py lines 54-68): a NamedTuple with fields
`serial_no`, `tty_device`, `mount_point`, `last_seen_at`.  `last_seen_at`
(a `datetime`) is modelled as a natural-number timestamp in seconds. -/
structure DeviceInfo where
  serial_no : String
  tty_device : Option String
  mount_point : String
  last_seen_at : Nat
deriving DecidableEq

/-- Python `==` on two `DeviceInfo` values.  The class overrides `__ne__`
but NOT `__eq__`, so `==` is the NamedTuple's tuple equality over all four
fields, `last_seen_at` included. -/
def pyEqDevice (a b : DeviceInfo) : Bool :=
  a.serial_no == b.serial_no && a.tty_device == b.tty_device
    && a.mount_point == b.mount_point && a.last_seen_at == b.last_seen_at

/-- The overridden `DeviceInfo.__ne__` (lines 60-65): structural
disequality over `(serial_no, tty_device, mount_point)` only, ignoring
`last_seen_at`.  Only used by Python for the `!=` operator. -/
def pyNeDevice (a b : DeviceInfo) : Bool :=
  !(a.serial_no == b.serial_no && a.tty_device == b.tty_device
      && a.mount_point == b.mount_point)

/-- A value stored in the script's dynamically typed `done_devices` set:
in practice a serial-number string, but the membership test at line 166
asks about a whole `DeviceInfo`, so both shapes are representable. -/
inductive PyVal where
  | str (s : String)
  | dev (d : DeviceInfo)
deriving DecidableEq

/-- Python `==` between two values that may be a `str` or a `DeviceInfo`
NamedTuple: values of different types compare unequal (both `__eq__`
methods return `NotImplemented`, and identity comparison fails). -/
def pyValEq : PyVal → PyVal → Bool
  | PyVal.str a, PyVal.str b => a == b
  | PyVal.dev a, PyVal.dev b => pyEqDevice a b
  | _, _ => false

/-- Python `x in xs` for a collection of dynamically typed values. -/
def pyMemVal (x : PyVal) (xs : List PyVal) : Bool :=
  xs.any (fun y => pyValEq x y)

/-- The `seen_devices` dict, keyed by serial number. -/
def lookupSeen : List (String × DeviceInfo) → String → Option DeviceInfo
  | [], _ => none
  | (k, v) :: rest, s => if k = s then some v else lookupSeen rest s

/-- `seen_devices[serial] = device` (dict assignment). -/
def insertSeen : List (String × DeviceInfo) → String → DeviceInfo →
    List (String × DeviceInfo)
  | [], k, v => [(k, v)]
  | (k1, v1) :: rest, k, v =>
    if k1 = k then (k, v) :: rest else (k1, v1) :: insertSeen rest k v

/-- The duplicate-suppression test of `discover_devices` (lines 154-158):
the serial is already in `seen_devices`, the stored observation `==` the
new one (Python `==`, hence all four fields), and
`datetime.now() - device.last_seen_at <= timedelta(seconds=120)` — note
that the code measures the window from the NEW observation's own
timestamp, not from the stored one. -/
def isSuppressed (seen : List (String × DeviceInfo)) (now : Nat)
    (device : DeviceInfo) : Bool :=
  match lookupSeen seen device.serial_no with
  | some prev => pyEqDevice prev device && decide (now - device.last_seen_at ≤ 120)
  | none => false

/-- What `discover_devices` decides for one resolved device. -/
structure StepResult where
  /-- the device was yielded to the orchestrator (dispatched) -/
  yielded : Bool
  /-- the `DONE_SCRIPT` re-run of line 164 fired -/
  reranDone : Bool
  /-- `seen_devices` after the step -/
  seenAfter : List (String × DeviceInfo)
deriving DecidableEq

/-- The per-device body of `discover_devices` (lines 151-167), after
`find_serial_port (find_mount_point item)` produced `device`:

* a device matching `specific_serial_no` is yielded at once (line 151-153);
* otherwise the duplicate-suppression test (lines 154-159) may drop it;
* otherwise `seen_devices` is updated (line 161), the `DONE_SCRIPT` re-run
  fires when the serial is in `done_devices` but its text does not occur in
  `str(most_recent_devices)` (line 163-164, modelled by `snapshotText`),
  and the device is yielded when its serial is not in `in_progress` and
  the `DeviceInfo` itself is not a member of `done_devices` (line 166).

`device and ...` at line 166 is always truthy for a non-empty NamedTuple,
so it is dropped. -/
def discoverStep (specific : Option String) (seen : List (String × DeviceInfo))
    (in_progress : List String) (done_devices : List PyVal)
    (snapshotText : String) (now : Nat) (device : DeviceInfo) : StepResult :=
  if (match specific with
      | some s => pyTruthyStr s && device.serial_no == s
      | none => false) then
    ⟨true, false, seen⟩
  else if isSuppressed seen now device then
    ⟨false, false, seen⟩
  else
    let seen1 := insertSeen seen device.serial_no device
    let reran := pyMemVal (PyVal.str device.serial_no) done_devices
      && !(pyStrIn device.serial_no snapshotText)
    let yld := !(in_progress.contains device.serial_no)
      && !(pyMemVal (PyVal.dev device) done_devices)
    ⟨yld, reran, seen1⟩

/-- Claim C1 (code bug): the claim says an observation is suppressed iff it
is structurally identical to the stored one — comparing identity, tty path
and mount point but NOT the timestamp — and the stored one was reconfirmed
within 120 s.  The code instead compares with Python `==`, which for this
NamedTuple includes `last_seen_at` (the overridden `__ne__` is never
consulted by `==`), so a structurally identical fresh observation is NOT
suppressed: with the stored observation taken at t=0 and an identical one
re-observed at t=10 (well inside the window under either reading), the
suppression test fails and `discover_devices` dispatches the device
again. -/
theorem dedup_compares_timestamp_not_structure :
    pyNeDevice ⟨"SN1", some "/dev/tty.usbmodem1", "/Volumes/CPY1", 0⟩
        ⟨"SN1", some "/dev/tty.usbmodem1", "/Volumes/CPY1", 10⟩ = false
    ∧ (10 - (0 : Nat) ≤ 120)
    ∧ isSuppressed [("SN1", ⟨"SN1", some "/dev/tty.usbmodem1", "/Volumes/CPY1", 0⟩)]
        10 ⟨"SN1", some "/dev/tty.usbmodem1", "/Volumes/CPY1", 10⟩ = false
    ∧ (discoverStep none
        [("SN1", ⟨"SN1", some "/dev/tty.usbmodem1", "/Volumes/CPY1", 0⟩)]
        [] [] "serial_num SN1" 10
        ⟨"SN1", some "/dev/tty.usbmodem1", "/Volumes/CPY1", 10⟩).yielded = true := by
  decide

/-- Claim C2 (code bug): the claim says a device that reached Done is never
dispatched to full provisioning again.  In the code `done_devices` holds
serial-number strings, but line 166 tests `device not in done_devices` with
the whole `DeviceInfo` NamedTuple, which is never equal to any string, so
the test is always true and a Done device IS re-dispatched; moreover the
line-163 guard `device.serial_no not in str(most_recent_devices)` is false
whenever the device is present in the snapshot it was just read from, so
not even the lightweight confirm-done script runs. -/
theorem done_device_redispatched :
    pyMemVal (PyVal.str "SN2") [PyVal.str "SN2"] = true
    ∧ (discoverStep none [] [] [PyVal.str "SN2"]
        "vendor_id 0x239a serial_num SN2" 50
        ⟨"SN2", some "/dev/tty.usbmodem2", "/Volumes/CPY2", 50⟩).yielded = true
    ∧ (discoverStep none [] [] [PyVal.str "SN2"]
        "vendor_id 0x239a serial_num SN2" 50
        ⟨"SN2", some "/dev/tty.usbmodem2", "/Volumes/CPY2", 50⟩).reranDone = false := by
  decide

/-- Claim C10: a device matching `specific_serial_no` is yielded
unconditionally at lines 151-153, before the duplicate-suppression window,
the `in_progress` check or the `done_devices` check, and without touching
`seen_devices`. -/
theorem specific_serial_bypasses_tracking (s : String)
    (seen : List (String × DeviceInfo)) (ip : List String)
    (done : List PyVal) (snap : String) (now : Nat) (dev : DeviceInfo)
    (hne : s ≠ "") (hm : dev.serial_no = s) :
    discoverStep (some s) seen ip done snap now dev = ⟨true, false, seen⟩ := by
  simp [discoverStep, pyTruthyStr, hne, hm]

/-- Witness for C10 at a concrete input: the target serial is in
`in_progress` AND in `done_devices` AND freshly present in `seen_devices`,
yet the device is still yielded and `seen_devices` is left untouched. -/
theorem specific_serial_bypasses_tracking_witness :
    discoverStep (some "SN9")
      [("SN9", ⟨"SN9", some "/dev/tty.usbmodem9", "/Volumes/CPY9", 3⟩)]
      ["SN9"] [PyVal.str "SN9"] "serial_num SN9" 3
      ⟨"SN9", some "/dev/tty.usbmodem9", "/Volumes/CPY9", 3⟩
    = ⟨true, false,
        [("SN9", ⟨"SN9", some "/dev/tty.usbmodem9", "/Volumes/CPY9", 3⟩)]⟩ :=
  specific_serial_bypasses_tracking "SN9"
    [("SN9", ⟨"SN9", some "/dev/tty.usbmodem9", "/Volumes/CPY9", 3⟩)]
    ["SN9"] [PyVal.str "SN9"] "serial_num SN9" 3
    ⟨"SN9", some "/dev/tty.usbmodem9", "/Volumes/CPY9", 3⟩
    (by decide) rfl

/-! ## Filesystem validation (content_flash lines 219-226) -/

/-- `EMPTY_FS_FILES` (lines 27-35): the expected freshly-erased manifest. -/
def EMPTY_FS_FILES : List String :=
  [".fseventsd", ".fseventsd/no_log", ".metadata_never_index", ".Trashes",
   "code.py", "lib", "boot_out.txt"]

/-- `EMPTY_FS_IGNORE` (line 36). -/
def EMPTY_FS_IGNORE : List String := ["fseventsd/no_log"]

/-- Python set difference `a - b` on sets of path strings. -/
def setDiff (a b : List String) : List String :=
  a.filter (fun x => !b.contains x)

/-- `extras = fs_contents - EMPTY_FS_FILES - EMPTY_FS_IGNORE` (line 221). -/
def fsExtras (fs_contents : List String) : List String :=
  setDiff (setDiff fs_contents EMPTY_FS_FILES) EMPTY_FS_IGNORE

/-- `missing = EMPTY_FS_FILES - fs_contents - EMPTY_FS_FILES` (line 222),
exactly as written in the source: the manifest is subtracted from itself. -/
def fsMissing (fs_contents : List String) : List String :=
  setDiff (setDiff EMPTY_FS_FILES fs_contents) EMPTY_FS_FILES

/-- `if extras or missing:` (line 224): erase is triggered when either set
is non-empty under Python truthiness. -/
def needsErase (fs_contents : List String) : Bool :=
  !(fsExtras fs_contents).isEmpty || !(fsMissing fs_contents).isEmpty

/-- Claim C4 (code bug): the claim says any extra OR any missing manifest
path triggers an erase.  Extras do, and an exact match triggers nothing,
but line 222 computes `missing` as `EMPTY_FS_FILES - fs_contents -
EMPTY_FS_FILES` (subtracting the manifest from itself, an obvious slip for
`EMPTY_FS_IGNORE`), so `missing` is always empty and a file set lacking
`code.py` does NOT trigger an erase. -/
theorem missing_manifest_path_never_triggers_erase :
    needsErase EMPTY_FS_FILES = false
    ∧ needsErase ("extra.txt" :: EMPTY_FS_FILES) = true
    ∧ "code.py" ∈ EMPTY_FS_FILES
    ∧ "code.py" ∉ EMPTY_FS_FILES.erase "code.py"
    ∧ needsErase (EMPTY_FS_FILES.erase "code.py") = false := by
  decide

/-! ## Version gate (get_circuitpython_version, content_flash line 233) -/

/-- `DESIRED_CPY_VERSION` (line 25). -/
def DESIRED_CPY_VERSION : String := "7.2.5"

/-- Python `\s` on the ASCII range. -/
def isPySpace (c : Char) : Bool :=
  c == ' ' || c == '\t' || c == '\n' || c == '\r' || c == '\x0b' || c == '\x0c'

/-- Strip a literal leading sequence, or fail. -/
def stripLead {α : Type} [DecidableEq α] : List α → List α → Option (List α)
  | [], cs => some cs
  | _ :: _, [] => none
  | p :: ps, c :: cs => if p = c then stripLead ps cs else none

/-- `get_circuitpython_version` (lines 205-211): `re.search` of
`^Adafruit CircuitPython (\S+) on.*` over `boot_out.txt`.  Without
`re.MULTILINE` the `^` anchor only matches at the start of the contents,
so the match succeeds exactly when the text starts with the literal
`"Adafruit CircuitPython "`, followed by a non-empty run of non-space
characters (the captured version token), followed by `" on"`. -/
def get_circuitpython_version (boot_contents : String) : Option String :=
  match stripLead "Adafruit CircuitPython ".data boot_contents.data with
  | none => none
  | some rest =>
    let tok := rest.takeWhile (fun c => !isPySpace c)
    let after := rest.drop tok.length
    if !tok.isEmpty && (stripLead " on".data after).isSome then
      some (String.mk tok)
    else none

/-- Python `<` on two strings: lexicographic by code point. -/
def pyStrLt : List Char → List Char → Bool
  | [], [] => false
  | [], _ :: _ => true
  | _ :: _, [] => false
  | a :: as, b :: bs => if a = b then pyStrLt as bs else decide (a < b)

/-- `cpy_version < DESIRED_CPY_VERSION` (line 233). -/
def upgradeNeeded (cpy_version : String) : Bool :=
  pyStrLt cpy_version.data DESIRED_CPY_VERSION.data

/-! ## content_flash outcome (lines 215-261) and the orchestrator's reaper
(main, lines 385-395) -/

/-- The failure points of `content_flash` that its
`except (serial.SerialException, OSError)` handler (line 260) can
observe, in source order.  The filesystem-validation prelude is modelled
separately by `needsErase`; `erase_filesystem` swallows its own
`SerialException` (line 329) and so never reaches the outer handler. -/
structure CFWorld where
  /-- version token extracted from `boot_out.txt` (line 232) -/
  cpyVersion : String
  /-- a serial I/O error inside the upgrade block (lines 236-242) -/
  upgradeRaises : Bool
  /-- an `OSError` while copying content (line 248) -/
  copyRaises : Bool
  /-- a serial I/O error while running the final `DONE_SCRIPT` (line 254) -/
  doneScriptRaises : Bool
deriving DecidableEq

/-- What one run of `content_flash` did. -/
structure CFResult where
  /-- the upgrade branch (lines 234-245) executed -/
  upgradeAttempted : Bool
  /-- `done_devices.add(device.serial_no)` at line 252 executed -/
  doneAdded : Bool
  /-- the `except` handler at line 260 ran (`logging.error`, no retry) -/
  errorLogged : Bool
deriving DecidableEq

/-- `content_flash` from the version check onward (lines 232-261): the
upgrade branch runs iff the extracted version compares `<` the desired
one; the first raised serial/OS error jumps to the handler at line 260,
which logs it and returns — so `done_devices.add` at line 252 runs only if
no error occurred before it. -/
def content_flash_run (w : CFWorld) : CFResult :=
  if upgradeNeeded w.cpyVersion && w.upgradeRaises then
    ⟨upgradeNeeded w.cpyVersion, false, true⟩
  else if w.copyRaises then
    ⟨upgradeNeeded w.cpyVersion, false, true⟩
  else if w.doneScriptRaises then
    ⟨upgradeNeeded w.cpyVersion, true, true⟩
  else
    ⟨upgradeNeeded w.cpyVersion, true, false⟩

/-- Claim C5: the upgrade branch is taken exactly when the version token
extracted from the boot report compares `<` (Python string comparison) the
desired version; `"7.2.0"` triggers it and `"7.2.5"` does not. -/
theorem version_gate (w : CFWorld) (boot : String)
    (hx : get_circuitpython_version boot = some w.cpyVersion) :
    ((content_flash_run w).upgradeAttempted = true
      ↔ ∃ v, get_circuitpython_version boot = some v
          ∧ pyStrLt v.data DESIRED_CPY_VERSION.data = true)
    ∧ upgradeNeeded "7.2.0" = true
    ∧ upgradeNeeded "7.2.5" = false := by
  refine ⟨?_, by decide, by decide⟩
  have h : (content_flash_run w).upgradeAttempted = upgradeNeeded w.cpyVersion := by
    unfold content_flash_run
    repeat' split
    all_goals rfl
  rw [h]
  constructor
  · intro hu
    exact ⟨w.cpyVersion, hx, hu⟩
  · rintro ⟨v, hv, hlt⟩
    rw [hx] at hv
    cases hv
    exact hlt

/-- Witness for C5 at a concrete boot report: the token `"7.2.0"` is
extracted and the upgrade branch fires. -/
theorem version_gate_witness :
    ((content_flash_run ⟨"7.2.0", false, false, false⟩).upgradeAttempted = true
      ↔ ∃ v, get_circuitpython_version
            "Adafruit CircuitPython 7.2.0 on 2022-04-06; Adafruit Circuit Playground Bluefruit with nRF52840"
          = some v
          ∧ pyStrLt v.data DESIRED_CPY_VERSION.data = true)
    ∧ upgradeNeeded "7.2.0" = true
    ∧ upgradeNeeded "7.2.5" = false :=
  version_gate ⟨"7.2.0", false, false, false⟩
    "Adafruit CircuitPython 7.2.0 on 2022-04-06; Adafruit Circuit Playground Bluefruit with nRF52840"
    (by decide)

/-- `main`'s task sources (line 385). -/
inductive TaskSource where
  | content
  | boot
deriving DecidableEq

/-- The shared tables the reaper mutates. -/
structure ReapState where
  in_progress : List String
  done_devices : List PyVal
deriving DecidableEq

/-- Python `set.add` of a dynamically typed value. -/
def pySetAdd (xs : List PyVal) (x : PyVal) : List PyVal :=
  if pyMemVal x xs then xs else xs ++ [x]

/-- The reaper body of `main` (lines 386-395) for one task with
`is_alive() == False`: remove the task, and if its name is in
`in_progress`, remove it there and — for a content task — add the name to
`done_devices`, UNCONDITIONALLY on the task's outcome (the reaper cannot
see whether the task failed). -/
def reapFinishedTask (st : ReapState) (src : TaskSource) (taskName : String) :
    ReapState :=
  if st.in_progress.contains taskName then
    { in_progress := st.in_progress.erase taskName
      done_devices :=
        if src = TaskSource.content then
          pySetAdd st.done_devices (PyVal.str taskName)
        else st.done_devices }
  else st

/-- Claim C3 (code bug): the claim says a serial transport error mid-script
is logged, aborts the task without retry, and the device ends Failed — in
particular not recorded as Done.  The logging and the abort hold
(`content_flash` itself does not reach `done_devices.add`), but the code
has no Failed state at all, and the reaper in `main` adds EVERY finished
content task's name to `done_devices` regardless of outcome — so a device
whose task aborted on a serial error IS recorded as done. -/
theorem failed_content_task_recorded_done :
    (content_flash_run ⟨"7.2.0", true, false, false⟩).errorLogged = true
    ∧ (content_flash_run ⟨"7.2.0", true, false, false⟩).doneAdded = false
    ∧ pyMemVal (PyVal.str "SN3")
        (reapFinishedTask ⟨["SN3"], []⟩ TaskSource.content "SN3").done_devices
      = true := by
  decide

/-! ## REPL driver: prompt acquisition (acquire_repl, lines 347-361) -/

/-- `b">>> "`, the `read_until` terminator. -/
def PROMPT_MARKER : List Nat := [62, 62, 62, 32]

/-- `b">>>"`, the substring actually tested for (lines 352, 359). -/
def PROMPT3 : List Nat := [62, 62, 62]

/-- `b"\x03\r\r"`: Ctrl-C followed by two carriage returns (line 358). -/
def CTRL_C_SEQ : List Nat := [3, 13, 13]

/-- An abstract serial transport with state `S`: byte writes, a
`read_until(terminator)` primitive, and a settable read timeout. -/
structure RawPort (S : Type) where
  writeB : S → List Nat → S
  readUntil : S → List Nat → List Nat × S
  getTimeout : S → Option Nat
  setTimeout : S → Option Nat → S

/-- One iteration of `acquire_repl`'s `while True` loop (lines 348-361):
write a bare `b"\r"`; under `temporary_timeout(serial_port, 2)` read until
the prompt marker; if `b">>>"` is in the output return success, otherwise
write the interrupt sequence `b"\x03\r\r"` and read until the marker once
more, returning success iff `b">>>"` is now seen.  The saved timeout is
restored on each exit of the `with` block (no read raises here). -/
def acquireCycle {S : Type} (p : RawPort S) (s : S) : Bool × S :=
  let s1 := p.writeB s [13]
  let cur := p.getTimeout s1
  let s2 := p.setTimeout s1 (some 2)
  let r1 := p.readUntil s2 PROMPT_MARKER
  if containsSeq PROMPT3 r1.1 then
    (true, p.setTimeout r1.2 cur)
  else
    let s4 := p.writeB r1.2 CTRL_C_SEQ
    let r2 := p.readUntil s4 PROMPT_MARKER
    if containsSeq PROMPT3 r2.1 then (true, p.setTimeout r2.2 cur)
    else (false, p.setTimeout r2.2 cur)

/-- `acquire_repl`: the unbounded retry loop over `acquireCycle`, given
fuel (the source loops forever; success within `n` cycles is success with
fuel `n`). -/
def acquire_repl {S : Type} (p : RawPort S) : Nat → S → Bool × S
  | 0, s => (false, s)
  | fuel + 1, s =>
    let r := acquireCycle p s
    if r.1 then (true, r.2) else acquire_repl p fuel r.2

/-- Claim C7: for any transport that ignores the bare carriage return (the
first read-until yields output without the marker) but answers the
interrupt sequence with the prompt marker (the second read-until's output
contains it), prompt acquisition succeeds within one two-attempt cycle. -/
theorem acquire_repl_two_attempt_cycle {S : Type} (p : RawPort S) (s : S)
    (h1 : containsSeq PROMPT3
        (p.readUntil (p.setTimeout (p.writeB s [13]) (some 2)) PROMPT_MARKER).1
      = false)
    (h2 : containsSeq PROMPT3
        (p.readUntil
          (p.writeB
            (p.readUntil (p.setTimeout (p.writeB s [13]) (some 2)) PROMPT_MARKER).2
            CTRL_C_SEQ)
          PROMPT_MARKER).1
      = true) :
    (acquireCycle p s).1 = true ∧ (acquire_repl p 1 s).1 = true := by
  have hc : (acquireCycle p s).1 = true := by
    simp only [acquireCycle]
    rw [h1]
    simp [h2]
  exact ⟨hc, by simp [acquire_repl, hc]⟩

/-- A mock transport state for the C7 witness: a timeout and the history
of writes. -/
structure MockState where
  tmo : Option Nat
  writes : List (List Nat)
deriving DecidableEq

/-- The mock transport of the claim: `read_until` yields the prompt marker
exactly when the interrupt sequence has been written, and nothing (a
timeout-expired empty read) otherwise — it ignores a bare carriage
return. -/
def mockPort : RawPort MockState :=
  { writeB := fun s bs => { s with writes := s.writes ++ [bs] }
    readUntil := fun s _ =>
      (if s.writes.contains CTRL_C_SEQ then PROMPT_MARKER else [], s)
    getTimeout := fun s => s.tmo
    setTimeout := fun s t => { s with tmo := t } }

/-- Witness for C7: on the mock transport, acquisition succeeds in the
single two-attempt cycle. -/
theorem acquire_repl_two_attempt_cycle_witness :
    (acquireCycle mockPort ⟨some 5, []⟩).1 = true
    ∧ (acquire_repl mockPort 1 ⟨some 5, []⟩).1 = true :=
  acquire_repl_two_attempt_cycle mockPort ⟨some 5, []⟩ (by decide) (by decide)

/-! ## REPL driver: the bounded output drain of run_script (lines 304-310)
and temporary_timeout (lines 339-344) -/

/-- The concrete port state for the drain: the current read timeout and
the sequence of pending `readline` results, where `Except.error ()`
models a `readline` call that raises `OSError`. -/
structure PortState where
  timeout : Option Nat
  pending : List (Except Unit (List Nat))

/-- `temporary_timeout` (lines 339-344): save the timeout, override it,
run the body, and restore — but the `@contextmanager` generator has no
`try/finally` around its `yield`, so when the body raises, the restore
line after the `yield` is skipped and the exception propagates. -/
def temporary_timeout {A : Type} (t : Option Nat)
    (body : PortState → Except Unit A × PortState) (s : PortState) :
    Except Unit A × PortState :=
  let cur := s.timeout
  let s1 : PortState := { s with timeout := t }
  let r := body s1
  match r.1 with
  | Except.ok a => (Except.ok a, { r.2 with timeout := cur })
  | Except.error e => (Except.error e, r.2)

/-- The `while serial_port.in_waiting:` loop (lines 306-308): keep reading
pending chunks until none are left (an empty buffer, covering both the
success and the empty-read exits) or a read raises `OSError`. -/
def drainReads : List (Except Unit (List Nat)) →
    Except Unit Unit × List (Except Unit (List Nat))
  | [] => (Except.ok (), [])
  | Except.ok _ :: rest => drainReads rest
  | Except.error e :: rest => (Except.error e, rest)

/-- `except OSError: pass` (lines 309-310): the error is swallowed. -/
def pyCatchOSError (r : Except Unit Unit) : Except Unit Unit :=
  match r with
  | Except.ok a => Except.ok a
  | Except.error _ => Except.ok ()

/-- The drain of `run_script` (lines 304-310): under
`temporary_timeout(serial_port, 2)`, run the read loop with the `OSError`
caught INSIDE the `with` block, so the block always exits normally. -/
def runScriptDrain (s : PortState) : PortState :=
  (temporary_timeout (some 2)
      (fun s1 =>
        let rd := drainReads s1.pending
        (pyCatchOSError rd.1, { s1 with pending := rd.2 }))
      s).2

/-- Claim C8: the drain restores the original read timeout on every exit
path — quantifying over all pending-read sequences covers the successful
drain, the immediately empty buffer, and an `OSError` raised mid-read
(which the drain's own handler catches before the `with` block exits). -/
theorem drain_restores_timeout (s : PortState) :
    (runScriptDrain s).timeout = s.timeout
    ∧ runScriptDrain ⟨s.timeout, []⟩
        = ⟨s.timeout, []⟩
    ∧ (runScriptDrain ⟨s.timeout, [Except.error ()]⟩).timeout = s.timeout := by
  refine ⟨?_, ?_, ?_⟩
  · rcases s with ⟨tmo, pending⟩
    simp only [runScriptDrain, temporary_timeout]
    rcases h : drainReads pending with ⟨r, rest⟩
    rcases r with a | e <;> simp [pyCatchOSError, h]
  · rfl
  · rfl

/-! ## Orchestrator scheduling (main, lines 364-398) -/

/-- One spawned provisioning thread as the orchestrator sees it: its name
(the device serial, line 376/381) and whether it is still alive. -/
structure OTask where
  name : String
  alive : Bool
deriving DecidableEq

/-- The orchestrator's shared tables relevant to dispatch: the
`in_progress` set and the spawned tasks. -/
structure OrchState where
  in_progress : List String
  tasks : List OTask
deriving DecidableEq

/-- Process start: empty tables, no tasks. -/
def orchInit : OrchState := ⟨[], []⟩

/-- The orchestrator's atomic steps, all executed by `main`'s single
loop thread:

* `dispatch` (lines 368-383): a discovered serial not in `in_progress` is
  added to `in_progress` and a live task is spawned for it — the check and
  the set happen before `task.start()`, with no other dispatch in between;
* `finish`: a running task's thread terminates (`is_alive` turns false);
* `reap` (lines 386-395): a finished task is removed and its name erased
  from `in_progress`. -/
inductive OrchStep : OrchState → OrchState → Prop
  | dispatch (st : OrchState) (sn : String) (h : sn ∉ st.in_progress) :
      OrchStep st ⟨sn :: st.in_progress, ⟨sn, true⟩ :: st.tasks⟩
  | finish (st : OrchState) (pre post : List OTask) (sn : String)
      (h : st.tasks = pre ++ ⟨sn, true⟩ :: post) :
      OrchStep st ⟨st.in_progress, pre ++ ⟨sn, false⟩ :: post⟩
  | reap (st : OrchState) (pre post : List OTask) (sn : String)
      (h : st.tasks = pre ++ ⟨sn, false⟩ :: post) :
      OrchStep st ⟨st.in_progress.erase sn, pre ++ post⟩

/-- States the orchestrator can reach from process start. -/
def OrchReachable (st : OrchState) : Prop :=
  Relation.ReflTransGen OrchStep orchInit st

/-- The inductive invariant: task names are pairwise distinct, and every
spawned task's name is in `in_progress`. -/
def orchInv (st : OrchState) : Prop :=
  (st.tasks.map OTask.name).Nodup
    ∧ ∀ t ∈ st.tasks, t.name ∈ st.in_progress

lemma orch_name_ne_of_nodup {pre post : List OTask} {mid t : OTask}
    (hnd : ((pre ++ mid :: post).map OTask.name).Nodup)
    (ht : t ∈ pre ++ post) : t.name ≠ mid.name := by
  rw [List.map_append, List.map_cons, List.nodup_append] at hnd
  obtain ⟨h1, h2, hdisj⟩ := hnd
  rcases List.mem_append.mp ht with hpre | hpost
  · intro he
    exact hdisj (List.mem_map_of_mem OTask.name hpre)
      (he ▸ List.mem_cons_self mid.name (post.map OTask.name))
  · intro he
    exact (List.nodup_cons.mp h2).1 (he ▸ List.mem_map_of_mem OTask.name hpost)

lemma orchInv_step {st st2 : OrchState} (h : OrchStep st st2)
    (hinv : orchInv st) : orchInv st2 := by
  obtain ⟨hnd, hmem⟩ := hinv
  cases h with
  | dispatch sn hni =>
    refine ⟨List.nodup_cons.mpr ⟨?_, hnd⟩, ?_⟩
    · intro hcon
      obtain ⟨t, ht, hname⟩ := List.mem_map.mp hcon
      have heq : t.name = sn := hname
      exact hni (heq ▸ hmem t ht)
    · intro t ht
      rcases List.mem_cons.mp ht with rfl | ht2
      · exact List.mem_cons_self _ _
      · exact List.mem_cons_of_mem _ (hmem t ht2)
  | finish pre post sn htasks =>
    rw [htasks] at hnd hmem
    constructor
    · have : ((pre ++ OTask.mk sn false :: post).map OTask.name)
          = ((pre ++ OTask.mk sn true :: post).map OTask.name) := by
        simp [List.map_append]
      rw [this]
      exact hnd
    · intro t ht
      rcases List.mem_append.mp ht with hpre | hmid
      · exact hmem t (List.mem_append_left _ hpre)
      · rcases List.mem_cons.mp hmid with rfl | hpost
        · exact hmem ⟨sn, true⟩ (List.mem_append_right _ (List.mem_cons_self _ _))
        · exact hmem t (List.mem_append_right _ (List.mem_cons_of_mem _ hpost))
  | reap pre post sn htasks =>
    rw [htasks] at hnd hmem
    constructor
    · have hsub : List.Sublist (pre ++ post) (pre ++ OTask.mk sn false :: post) :=
        List.Sublist.append_left (List.Sublist.cons _ (List.Sublist.refl post)) pre
      exact hnd.sublist (hsub.map OTask.name)
    · intro t ht
      have hne : t.name ≠ (OTask.mk sn false).name :=
        orch_name_ne_of_nodup hnd ht
      have hin : t.name ∈ st.in_progress := by
        rcases List.mem_append.mp ht with hpre | hpost
        · exact hmem t (List.mem_append_left _ hpre)
        · exact hmem t (List.mem_append_right _ (List.mem_cons_of_mem _ hpost))
      exact (List.mem_erase_of_ne hne).mpr hin

lemma orchInv_reachable {st : OrchState} (h : OrchReachable st) : orchInv st := by
  induction h with
  | refl => exact ⟨List.nodup_nil, by intro t ht; cases ht⟩
  | tail _ hstep ih => exact orchInv_step hstep ih

/-- Claim C6: in every orchestrator state reachable from process start, no
two simultaneously alive tasks carry the same identity (serial number) —
the `in_progress` set is checked and extended at the dispatch point,
before the task is spawned, and only cleared when a task is reaped after
terminating. -/
theorem at_most_one_active_task (st : OrchState) (h : OrchReachable st) :
    ((st.tasks.filter OTask.alive).map OTask.name).Nodup :=
  (orchInv_reachable h).1.sublist
    ((List.filter_sublist st.tasks).map OTask.name)

/-- Witness for C6: the state after dispatching two distinct serials is
reachable and carries no duplicated alive identity. -/
theorem at_most_one_active_task_witness :
    (((⟨["B", "A"], [⟨"B", true⟩, ⟨"A", true⟩]⟩ : OrchState).tasks.filter
        OTask.alive).map OTask.name).Nodup :=
  at_most_one_active_task ⟨["B", "A"], [⟨"B", true⟩, ⟨"A", true⟩]⟩
    (Relation.ReflTransGen.tail
      (Relation.ReflTransGen.tail (Relation.ReflTransGen.refl)
        (OrchStep.dispatch orchInit "A" (by decide)))
      (OrchStep.dispatch ⟨["A"], [⟨"A", true⟩]⟩ "B" (by decide)))

/-! ## Content copy (copy_content, lines 264-276) -/

/-- A path relative to the mount point / the content root, as components. -/
abbrev FPath := List String

/-- A filesystem entry: a directory, or a file with contents and
permission bits. -/
inductive FsEntry where
  | dir (mode : Nat)
  | file (content : List Nat) (mode : Nat)
deriving DecidableEq

/-- A file tree: a finite association of paths to entries. -/
abbrev FsTree := List (FPath × FsEntry)

def lookupFs : FsTree → FPath → Option FsEntry
  | [], _ => none
  | (q, e) :: rest, p => if q = p then some e else lookupFs rest p

/-- Write an entry at a path: replace in place, or append. -/
def setFs : FsTree → FPath → FsEntry → FsTree
  | [], p, e => [(p, e)]
  | (q, f) :: rest, p, e =>
    if q = p then (p, e) :: rest else (q, f) :: setFs rest p e

def isDirAt (t : FsTree) (p : FPath) : Bool :=
  match lookupFs t p with
  | some (FsEntry.dir _) => true
  | _ => false

/-- The parent directory of `p` exists (or `p` sits at the mount root). -/
def parentOk (t : FsTree) (p : FPath) : Bool :=
  p.dropLast.isEmpty || isDirAt t p.dropLast

/-- `pathlib.PurePath.stem`: the final component without its suffix —
`name[:i]` for `i = name.rfind(".")` when `0 < i < len(name) - 1`,
otherwise the whole name (so a leading-dot name like `".DS_Store"` is its
own stem). -/
def pathStem (name : String) : String :=
  match name.data.reverse.findIdx? (fun c => c == '.') with
  | some j =>
    let i := name.data.length - 1 - j
    if 0 < i && i < name.data.length - 1 then String.mk (name.data.take i)
    else name
  | none => name

/-- `if src.stem == ".DS_Store": continue` (line 266), applied to the
entry's final component. -/
def skipsEntry (p : FPath) : Bool :=
  match p.getLast? with
  | some leaf => pathStem leaf == ".DS_Store"
  | none => true

/-- The body of `copy_content`'s loop for one source entry (lines 268-276):
a directory is `mkdir(0o755, exist_ok=True)`-ed — a no-op when a directory
already exists, `FileExistsError` when a non-directory occupies the path,
`FileNotFoundError` when the parent is missing; a file is
`shutil.copyfile`-d then `copymode`-d — overwriting any existing file with
the source's content and permission bits, failing on a directory. -/
def applyEntry (t : FsTree) (p : FPath) (e : FsEntry) : Except Unit FsTree :=
  match e with
  | FsEntry.dir _ =>
    match lookupFs t p with
    | some (FsEntry.dir _) => Except.ok t
    | some (FsEntry.file _ _) => Except.error ()
    | none =>
      if parentOk t p then Except.ok (setFs t p (FsEntry.dir 493))
      else Except.error ()
  | FsEntry.file c m =>
    match lookupFs t p with
    | some (FsEntry.dir _) => Except.error ()
    | _ =>
      if parentOk t p then Except.ok (setFs t p (FsEntry.file c m))
      else Except.error ()

/-- `copy_content` (lines 264-276): fold the source entries (in `rglob`
order) over the device tree, skipping `.DS_Store`-stem entries. -/
def copy_content : List (FPath × FsEntry) → FsTree → Except Unit FsTree
  | [], t => Except.ok t
  | (p, e) :: rest, t =>
    if skipsEntry p then copy_content rest t
    else
      match applyEntry t p e with
      | Except.ok t2 => copy_content rest t2
      | Except.error e2 => Except.error e2

lemma lookupFs_setFs_self (t : FsTree) (p : FPath) (e : FsEntry) :
    lookupFs (setFs t p e) p = some e := by
  induction t with
  | nil => simp [setFs, lookupFs]
  | cons hd rest ih =>
    rcases hd with ⟨q, f⟩
    by_cases h : q = p <;> simp [setFs, lookupFs, h, ih]

lemma lookupFs_setFs_ne (t : FsTree) {p q : FPath} (e : FsEntry) (h : q ≠ p) :
    lookupFs (setFs t p e) q = lookupFs t q := by
  induction t with
  | nil => simp [setFs, lookupFs, Ne.symm h]
  | cons hd rest ih =>
    rcases hd with ⟨q1, f⟩
    by_cases h1 : q1 = p
    · subst h1
      simp [setFs, lookupFs, Ne.symm h]
    · simp only [setFs, if_neg h1, lookupFs]
      by_cases h2 : q1 = q <;> simp [h2, ih]

lemma setFs_lookup_eq {t : FsTree} {p : FPath} {e : FsEntry}
    (h : lookupFs t p = some e) : setFs t p e = t := by
  induction t with
  | nil => simp [lookupFs] at h
  | cons hd rest ih =>
    rcases hd with ⟨q, f⟩
    by_cases hq : q = p
    · rw [lookupFs, if_pos hq] at h
      rw [setFs, if_pos hq]
      cases h
      rw [hq]
    · rw [lookupFs, if_neg hq] at h
      rw [setFs, if_neg hq, ih h]

lemma dropLast_ne_self {p : FPath} (h : p ≠ []) : p.dropLast ≠ p := by
  intro he
  have hl := congrArg List.length he
  rw [List.length_dropLast] at hl
  have hpos : 0 < p.length := List.length_pos.mpr h
  omega

/-- The possible results of one `applyEntry`: the tree unchanged, or one
entry written at the target path. -/
lemma applyEntry_shape {t t2 : FsTree} {p : FPath} {e : FsEntry}
    (h : applyEntry t p e = Except.ok t2) :
    t2 = t ∨ ∃ g, t2 = setFs t p g := by
  rcases e with m | ⟨c, m⟩ <;> simp only [applyEntry] at h
  · split at h
    · cases h
      exact Or.inl rfl
    · cases h
    · split at h
      · cases h
        exact Or.inr ⟨_, rfl⟩
      · cases h
  · split at h
    · cases h
    · split at h
      · cases h
        exact Or.inr ⟨_, rfl⟩
      · cases h

lemma applyEntry_preserves_dir {t t2 : FsTree} {p : FPath} {e : FsEntry}
    (h : applyEntry t p e = Except.ok t2) {q : FPath}
    (hd : isDirAt t q = true) : isDirAt t2 q = true := by
  rcases e with m | ⟨c, m⟩ <;> simp only [applyEntry] at h
  · split at h
    · cases h
      exact hd
    · cases h
    · rename_i hl
      split at h
      · cases h
        by_cases hqp : q = p
        · subst hqp
          rw [isDirAt, hl] at hd
          cases hd
        · rw [isDirAt, lookupFs_setFs_ne t _ hqp]
          exact hd
      · cases h
  · split at h
    · cases h
    · rename_i hl
      split at h
      · cases h
        by_cases hqp : q = p
        · subst hqp
          rw [isDirAt] at hd
          rcases hlk : lookupFs t q with _ | g
          · rw [hlk] at hd
            simp at hd
          · rcases g with m2 | ⟨c2, m2⟩
            · exact absurd hlk (hl _)
            · rw [hlk] at hd
              simp at hd
        · rw [isDirAt, lookupFs_setFs_ne t _ hqp]
          exact hd
      · cases h

lemma copy_content_preserves_dir {entries : List (FPath × FsEntry)}
    {t t2 : FsTree} (h : copy_content entries t = Except.ok t2) {q : FPath}
    (hd : isDirAt t q = true) : isDirAt t2 q = true := by
  induction entries generalizing t with
  | nil =>
    simp only [copy_content, Except.ok.injEq] at h
    subst h
    exact hd
  | cons pe rest ih =>
    rcases pe with ⟨p, e⟩
    simp only [copy_content] at h
    split at h
    · exact ih h hd
    · split at h
      · rename_i t3 happly
        exact ih h (applyEntry_preserves_dir happly hd)
      · cases h

lemma copy_content_preserves_parentOk {entries : List (FPath × FsEntry)}
    {t t2 : FsTree} (h : copy_content entries t = Except.ok t2) {p : FPath}
    (hp : parentOk t p = true) : parentOk t2 p = true := by
  rw [parentOk, Bool.or_eq_true] at hp ⊢
  rcases hp with he | hd
  · exact Or.inl he
  · exact Or.inr (copy_content_preserves_dir h hd)

/-- A source entry already has its mirror image in the tree: a directory
exists at a directory entry's path; a file entry's exact content and mode
sit at its path with the parent directory present. -/
def mirroredEntry (t : FsTree) : FPath × FsEntry → Prop
  | (p, FsEntry.dir _) => isDirAt t p = true
  | (p, FsEntry.file c m) =>
      lookupFs t p = some (FsEntry.file c m) ∧ parentOk t p = true

lemma applyEntry_establishes {t t2 : FsTree} {p : FPath} {e : FsEntry}
    (h : applyEntry t p e = Except.ok t2) : mirroredEntry t2 (p, e) := by
  rcases e with m | ⟨c, m⟩ <;> simp only [applyEntry] at h
  · split at h
    · rename_i hl
      cases h
      rw [mirroredEntry, isDirAt, hl]
    · cases h
    · split at h
      · cases h
        rw [mirroredEntry, isDirAt, lookupFs_setFs_self]
      · cases h
  · split at h
    · cases h
    · rename_i hl
      split at h
      · rename_i hp
        cases h
        refine ⟨lookupFs_setFs_self t p _, ?_⟩
        rw [parentOk, Bool.or_eq_true] at hp ⊢
        rcases hp with he | hd
        · exact Or.inl he
        · by_cases hnil : p = []
          · subst hnil
            exact Or.inl rfl
          · refine Or.inr ?_
            rw [isDirAt, lookupFs_setFs_ne t _ (dropLast_ne_self hnil)]
            exact hd
      · cases h

lemma applyEntry_preserves_mirrored {t t2 : FsTree} {q : FPath} {f : FsEntry}
    (h : applyEntry t q f = Except.ok t2) {p : FPath} {e : FsEntry}
    (hne : q ≠ p) (hm : mirroredEntry t (p, e)) : mirroredEntry t2 (p, e) := by
  rcases e with m | ⟨c, m⟩
  · exact applyEntry_preserves_dir h hm
  · obtain ⟨hl, hp⟩ := hm
    refine ⟨?_, ?_⟩
    · rcases applyEntry_shape h with rfl | ⟨g, rfl⟩
      · exact hl
      · rw [lookupFs_setFs_ne t _ (Ne.symm hne)]
        exact hl
    · rw [parentOk, Bool.or_eq_true] at hp ⊢
      rcases hp with he | hd
      · exact Or.inl he
      · exact Or.inr (applyEntry_preserves_dir h hd)

lemma copy_content_preserves_mirrored {entries : List (FPath × FsEntry)}
    {t t2 : FsTree} (h : copy_content entries t = Except.ok t2)
    {p : FPath} {e : FsEntry} (hnot : ∀ pe ∈ entries, pe.1 ≠ p)
    (hm : mirroredEntry t (p, e)) : mirroredEntry t2 (p, e) := by
  induction entries generalizing t with
  | nil =>
    simp only [copy_content, Except.ok.injEq] at h
    subst h
    exact hm
  | cons pe rest ih =>
    rcases pe with ⟨q, f⟩
    simp only [copy_content] at h
    split at h
    · exact ih h (fun x hx => hnot x (List.mem_cons_of_mem _ hx)) hm
    · split at h
      · rename_i t3 happly
        exact ih h (fun x hx => hnot x (List.mem_cons_of_mem _ hx))
          (applyEntry_preserves_mirrored happly
            (hnot (q, f) (List.mem_cons_self _ _)) hm)
      · cases h

lemma copy_content_establishes {entries : List (FPath × FsEntry)}
    {t t2 : FsTree} (h : copy_content entries t = Except.ok t2)
    (hnd : (entries.map Prod.fst).Nodup) :
    ∀ pe ∈ entries, skipsEntry pe.1 = false → mirroredEntry t2 pe := by
  induction entries generalizing t with
  | nil =>
    intro pe hpe
    cases hpe
  | cons hd rest ih =>
    rcases hd with ⟨p, e⟩
    rw [List.map_cons, List.nodup_cons] at hnd
    obtain ⟨hpn, hnd2⟩ := hnd
    simp only [copy_content] at h
    intro pe hpe hsk
    rcases List.mem_cons.mp hpe with rfl | htail
    · split at h
      · rename_i hskip
        rw [hsk] at hskip
        cases hskip
      · split at h
        · rename_i t3 happly
          exact copy_content_preserves_mirrored h
            (fun x hx heq => hpn (by
              have hmm := List.mem_map_of_mem Prod.fst hx
              rwa [heq] at hmm))
            (applyEntry_establishes happly)
        · cases h
    · split at h
      · exact ih h hnd2 pe htail hsk
      · split at h
        · exact ih h hnd2 pe htail hsk
        · cases h

lemma copy_content_fixed {entries : List (FPath × FsEntry)} {t : FsTree}
    (hall : ∀ pe ∈ entries, skipsEntry pe.1 = false → mirroredEntry t pe) :
    copy_content entries t = Except.ok t := by
  induction entries with
  | nil => rfl
  | cons hd rest ih =>
    rcases hd with ⟨p, e⟩
    by_cases hsk : skipsEntry p = true
    · simp only [copy_content, if_pos hsk]
      exact ih (fun x hx => hall x (List.mem_cons_of_mem _ hx))
    · have hm : mirroredEntry t (p, e) :=
        hall (p, e) (List.mem_cons_self _ _) (Bool.of_not_eq_true hsk)
      have happly : applyEntry t p e = Except.ok t := by
        rcases e with m | ⟨c, m⟩
        · rw [mirroredEntry, isDirAt] at hm
          rcases hl : lookupFs t p with _ | g
          · rw [hl] at hm
            cases hm
          · rcases g with m2 | ⟨c2, m2⟩
            · simp [applyEntry, hl]
            · rw [hl] at hm
              cases hm
        · obtain ⟨hl, hp⟩ := hm
          simp [applyEntry, hl, hp, setFs_lookup_eq hl]
      simp only [copy_content, if_neg hsk, happly]
      exact ih (fun x hx => hall x (List.mem_cons_of_mem _ hx))

/-- Claim C9: content copy is an idempotent mirror.  If one run of
`copy_content` (which creates directories as needed, copies each file's
content and permission bits, and skips `.DS_Store`-stem entries) succeeds
and turns the mount-point tree `d` into `d2`, then a second run over the
same source entries succeeds and leaves `d2` exactly unchanged — the
source entries' paths being distinct, as `rglob` guarantees. -/
theorem copy_content_idempotent (entries : List (FPath × FsEntry))
    (d d2 : FsTree) (hnd : (entries.map Prod.fst).Nodup)
    (h : copy_content entries d = Except.ok d2) :
    copy_content entries d2 = Except.ok d2 :=
  copy_content_fixed (copy_content_establishes h hnd)

/-- Witness for C9 at a concrete content tree: a directory, a file inside
it, a top-level file, and a skipped `.DS_Store`, run against an initially
empty mount point. -/
theorem copy_content_idempotent_witness :
    copy_content
      [(["lib"], FsEntry.dir 493),
       (["lib", "neopixel.py"], FsEntry.file [65] 420),
       (["code.py"], FsEntry.file [35, 33] 493),
       ([".DS_Store"], FsEntry.file [0] 420)]
      [(["lib"], FsEntry.dir 493),
       (["lib", "neopixel.py"], FsEntry.file [65] 420),
       (["code.py"], FsEntry.file [35, 33] 493)]
    = Except.ok
      [(["lib"], FsEntry.dir 493),
       (["lib", "neopixel.py"], FsEntry.file [65] 420),
       (["code.py"], FsEntry.file [35, 33] 493)] :=
  copy_content_idempotent
    [(["lib"], FsEntry.dir 493),
     (["lib", "neopixel.py"], FsEntry.file [65] 420),
     (["code.py"], FsEntry.file [35, 33] 493),
     ([".DS_Store"], FsEntry.file [0] 420)]
    [] _ (by decide) rfl

end Multiflash
